import Mathlib

/-!
Verification of the Four_fish_school scalar-transport repository.

This file shallowly embeds the parts of the repository's C++ code that the
verified properties are about:

* `FlappingFoilKinematics.cpp` — prescribed heave/pitch kinematics of a
  flapping foil (constructor, `getFromInput`, `setKinematicsVelocity`,
  `setShape`, `computeHeaveKinematics`, `computePitchKinematics`);
* the Test-04 manufactured-solution source term documented in the MMS test
  description, and the Test04/Test05 driver `main` functions;
* a conservative flux-form advection/diffusion step.  The transport core
  itself is the external IBAMR library (`AdvDiffHierarchyIntegrator`), which
  is not part of the repository, so this step and its CFL precondition are
  modelled from the design spec rather than from repository code.

Real-valued quantities of the C++ code (doubles fed to `sin`, `cos`, `exp`)
are modelled by `ℝ`; the flux-form grid update, which only needs field
arithmetic, is modelled over `ℚ` so that it is executable.
-/

open Real

namespace FourFishSchool

/-- Degrees-to-radians helper from the anonymous namespace of
`FlappingFoilKinematics.cpp`: `deg * M_PI / 180.0`. -/
noncomputable def deg_to_rad (deg : ℝ) : ℝ :=
  deg * π / 180

/-- The input database consumed by `FlappingFoilKinematics::getFromInput`.
Each field is `some v` when the corresponding key exists in the database
(`input_db->keyExists(...)`) with value `v`, and `none` when it is absent. -/
structure FoilDatabase where
  frequency : Option ℝ
  heave_amplitude : Option ℝ
  pitch_amplitude : Option ℝ
  phase_offset : Option ℝ
  pivot_point_x : Option ℝ
  pivot_point_y : Option ℝ
  initial_offset_x : Option ℝ
  initial_offset_y : Option ℝ

/-- The configuration members of `FlappingFoilKinematics` that
`getFromInput` fills in (angles already converted to radians, as in the
C++ code). -/
structure FoilParams where
  frequency : ℝ
  heave_amplitude : ℝ
  pitch_amplitude : ℝ
  phase_offset : ℝ
  pivot_point_x : ℝ
  pivot_point_y : ℝ
  initial_offset_x : ℝ
  initial_offset_y : ℝ

/-- `FlappingFoilKinematics::getFromInput`.  The three required keys are
checked in order and a missing one raises `TBOX_ERROR` (modelled as
`Except.error` carrying the message text); `phase_offset` defaults to
`deg_to_rad 90`, and the pivot-point and initial-offset keys keep the
constructor-initializer values `0.25`, `0`, `0`, `0` when absent. -/
noncomputable def getFromInput (db : FoilDatabase) : Except String FoilParams :=
  match db.frequency with
  | none => Except.error "Key frequency not found in input database."
  | some f =>
    match db.heave_amplitude with
    | none => Except.error "Key heave_amplitude not found in input database."
    | some h0 =>
      match db.pitch_amplitude with
      | none => Except.error "Key pitch_amplitude not found in input database."
      | some pitch_deg =>
        Except.ok
          { frequency := f
            heave_amplitude := h0
            pitch_amplitude := deg_to_rad pitch_deg
            phase_offset :=
              match db.phase_offset with
              | some phase_deg => deg_to_rad phase_deg
              | none => deg_to_rad 90
            pivot_point_x := db.pivot_point_x.getD 0.25
            pivot_point_y := db.pivot_point_y.getD 0
            initial_offset_x := db.initial_offset_x.getD 0
            initial_offset_y := db.initial_offset_y.getD 0 }

/-- The mutable state of a `FlappingFoilKinematics` object (NDIM = 2, the
configuration used throughout the repository).  `d_kinematics_vel` and
`d_shape` are the per-patch-level stores, modelled as level-indexed maps;
`d_new_kinematics_vel` is the `[V_x, V_y, ω_z]` vector. -/
structure FoilState where
  params : FoilParams
  d_omega : ℝ
  d_current_time : ℝ
  d_center_of_mass : List ℝ
  d_new_kinematics_vel : List ℝ
  d_kinematics_vel : ℕ → List ℝ
  d_shape : ℕ → List ℝ
  finest_ln : ℕ

/-- The Strouhal diagnostic printed by the constructor:
`St_approx = d_frequency * (2.0 * d_heave_amplitude)`. -/
noncomputable def strouhalReport (p : FoilParams) : ℝ :=
  p.frequency * (2 * p.heave_amplitude)

/-- The `FlappingFoilKinematics` constructor after a successful
`getFromInput`: it computes `d_omega = 2.0 * M_PI * d_frequency`, sizes the
per-level stores for levels `0 .. finest_ln`, and prints the configuration
including the Strouhal diagnostic (returned here as the second component). -/
noncomputable def construct (p : FoilParams) (finest_ln : ℕ) : FoilState × ℝ :=
  ({ params := p
     d_omega := 2 * π * p.frequency
     d_current_time := 0
     d_center_of_mass := []
     d_new_kinematics_vel := [0, 0, 0]
     d_kinematics_vel := fun _ => []
     d_shape := fun _ => []
     finest_ln := finest_ln },
   strouhalReport p)

/-- `FlappingFoilKinematics::computeHeaveKinematics`: returns the pair
`(h, h_dot)` with `h = h0 * sin(ω t)` and `h_dot = h0 * ω * cos(ω t)`,
reading `h0` and `ω` from the object state. -/
noncomputable def computeHeaveKinematics (s : FoilState) (time : ℝ) : ℝ × ℝ :=
  (s.params.heave_amplitude * Real.sin (s.d_omega * time),
   s.params.heave_amplitude * s.d_omega * Real.cos (s.d_omega * time))

/-- `FlappingFoilKinematics::computePitchKinematics`: returns the pair
`(θ, θ_dot)` with `θ = θ0 * sin(ω t + φ)` and
`θ_dot = θ0 * ω * cos(ω t + φ)`. -/
noncomputable def computePitchKinematics (s : FoilState) (time : ℝ) : ℝ × ℝ :=
  (s.params.pitch_amplitude * Real.sin (s.d_omega * time + s.params.phase_offset),
   s.params.pitch_amplitude * s.d_omega *
     Real.cos (s.d_omega * time + s.params.phase_offset))

/-- `FlappingFoilKinematics::setKinematicsVelocity` (NDIM = 2 branch):
stores the call time and centre of mass, computes the heave and pitch
kinematics at the requested time, assembles `[0, h_dot, theta_dot]`
(no horizontal translation), and copies that vector into the store of
every patch level `0 .. finest_ln`. -/
noncomputable def setKinematicsVelocity (s : FoilState) (time : ℝ)
    (center_of_mass : List ℝ) : FoilState :=
  let h_dot := (computeHeaveKinematics s time).2
  let theta_dot := (computePitchKinematics s time).2
  let vel := [0, h_dot, theta_dot]
  { s with
    d_current_time := time
    d_center_of_mass := center_of_mass
    d_new_kinematics_vel := vel
    d_kinematics_vel := fun ln =>
      if ln ≤ s.finest_ln then vel else s.d_kinematics_vel ln }

/-- `FlappingFoilKinematics::setShape`: clears the stored shape at every
patch level `0 .. finest_ln` (rigid body, no deformation). -/
noncomputable def setShape (s : FoilState) (_time : ℝ) : FoilState :=
  { s with
    d_shape := fun ln => if ln ≤ s.finest_ln then [] else s.d_shape ln }

/-- A call history against the provider: each entry is the `(time,
center_of_mass)` argument pair of one `setKinematicsVelocity` call,
applied in order. -/
noncomputable def applyCalls (s : FoilState) (calls : List (ℝ × List ℝ)) : FoilState :=
  calls.foldl (fun st c => setKinematicsVelocity st c.1 c.2) s

/-- `setKinematicsVelocity` never touches the configuration, the angular
frequency, or the finest level number. -/
theorem setKinematicsVelocity_config (s : FoilState) (t : ℝ) (com : List ℝ) :
    (setKinematicsVelocity s t com).params = s.params ∧
    (setKinematicsVelocity s t com).d_omega = s.d_omega ∧
    (setKinematicsVelocity s t com).finest_ln = s.finest_ln :=
  ⟨rfl, rfl, rfl⟩

/-- Any call history preserves the configuration, the angular frequency and
the finest level number. -/
theorem applyCalls_config (s : FoilState) (calls : List (ℝ × List ℝ)) :
    (applyCalls s calls).params = s.params ∧
    (applyCalls s calls).d_omega = s.d_omega ∧
    (applyCalls s calls).finest_ln = s.finest_ln := by
  induction calls generalizing s with
  | nil => exact ⟨rfl, rfl, rfl⟩
  | cons c rest ih =>
      simpa [applyCalls, List.foldl_cons] using
        ih (setKinematicsVelocity s c.1 c.2)

/-- The velocity vector written by one `setKinematicsVelocity` call, as a
function of the configuration, the angular frequency and the call time
only. -/
noncomputable def velFormula (p : FoilParams) (w t : ℝ) : List ℝ :=
  [0, p.heave_amplitude * w * Real.cos (w * t),
   p.pitch_amplitude * w * Real.cos (w * t + p.phase_offset)]

/-- The vector stored by `setKinematicsVelocity` is `velFormula` of the
configuration, the angular frequency and the call time. -/
theorem setKinematicsVelocity_vel (s : FoilState) (t : ℝ) (com : List ℝ) :
    (setKinematicsVelocity s t com).d_new_kinematics_vel =
      velFormula s.params s.d_omega t :=
  rfl

/-- Claim C3: for every time `t` the kinematics provider produces exactly the
closed-form motion `h(t) = h0 sin(ω t)`, `h_dot(t) = h0 ω cos(ω t)`,
`θ(t) = θ0 sin(ω t + φ)`, `θ_dot(t) = θ0 ω cos(ω t + φ)` with `ω = 2 π f`
set at construction; moreover the reported velocities are genuinely the time
derivatives of the reported positions. -/
theorem claim3_closed_form_kinematics (p : FoilParams) (finest : ℕ) (t : ℝ) :
    (computeHeaveKinematics (construct p finest).1 t).1 =
      p.heave_amplitude * Real.sin (2 * π * p.frequency * t) ∧
    (computeHeaveKinematics (construct p finest).1 t).2 =
      p.heave_amplitude * (2 * π * p.frequency) *
        Real.cos (2 * π * p.frequency * t) ∧
    (computePitchKinematics (construct p finest).1 t).1 =
      p.pitch_amplitude * Real.sin (2 * π * p.frequency * t + p.phase_offset) ∧
    (computePitchKinematics (construct p finest).1 t).2 =
      p.pitch_amplitude * (2 * π * p.frequency) *
        Real.cos (2 * π * p.frequency * t + p.phase_offset) ∧
    HasDerivAt (fun u => (computeHeaveKinematics (construct p finest).1 u).1)
      (computeHeaveKinematics (construct p finest).1 t).2 t ∧
    HasDerivAt (fun u => (computePitchKinematics (construct p finest).1 u).1)
      (computePitchKinematics (construct p finest).1 t).2 t := by
  have hlin : HasDerivAt (fun u : ℝ => 2 * π * p.frequency * u)
      (2 * π * p.frequency) t := by
    simpa using (hasDerivAt_id t).const_mul (2 * π * p.frequency)
  have haff : HasDerivAt (fun u : ℝ => 2 * π * p.frequency * u + p.phase_offset)
      (2 * π * p.frequency) t := hlin.add_const p.phase_offset
  refine ⟨rfl, rfl, rfl, rfl, ?_, ?_⟩
  · have h := (hlin.sin).const_mul p.heave_amplitude
    simp only [computeHeaveKinematics, construct]
    convert h using 1
    ring
  · have h := (haff.sin).const_mul p.pitch_amplitude
    simp only [computePitchKinematics, construct]
    convert h using 1
    ring

/-- Claim C4: the kinematics velocity is a pure function of the evaluation
time and the fixed configuration.  Any two call histories ending with calls
at the same time `t` (over states sharing the configuration and the angular
frequency) produce the same kinematics velocity vector, regardless of the
earlier calls and of the centre-of-mass arguments; the per-level stores
agree as well on every level both objects cover. -/
theorem claim4_kinematics_stateless (s1 s2 : FoilState)
    (hp : s1.params = s2.params) (hw : s1.d_omega = s2.d_omega)
    (hist1 hist2 : List (ℝ × List ℝ)) (t : ℝ) (com1 com2 : List ℝ) :
    (applyCalls s1 (hist1 ++ [(t, com1)])).d_new_kinematics_vel
      = (applyCalls s2 (hist2 ++ [(t, com2)])).d_new_kinematics_vel ∧
    ∀ ln : ℕ, ln ≤ s1.finest_ln → ln ≤ s2.finest_ln →
      (applyCalls s1 (hist1 ++ [(t, com1)])).d_kinematics_vel ln
        = (applyCalls s2 (hist2 ++ [(t, com2)])).d_kinematics_vel ln := by
  have e1 : applyCalls s1 (hist1 ++ [(t, com1)])
      = setKinematicsVelocity (applyCalls s1 hist1) t com1 := by
    simp [applyCalls, List.foldl_append]
  have e2 : applyCalls s2 (hist2 ++ [(t, com2)])
      = setKinematicsVelocity (applyCalls s2 hist2) t com2 := by
    simp [applyCalls, List.foldl_append]
  have c1 := applyCalls_config s1 hist1
  have c2 := applyCalls_config s2 hist2
  have hv : (setKinematicsVelocity (applyCalls s1 hist1) t com1).d_new_kinematics_vel
      = (setKinematicsVelocity (applyCalls s2 hist2) t com2).d_new_kinematics_vel := by
    rw [setKinematicsVelocity_vel, setKinematicsVelocity_vel,
      c1.1, c1.2.1, c2.1, c2.2.1, hp, hw]
  constructor
  · rw [e1, e2]; exact hv
  · intro ln hln1 hln2
    rw [e1, e2]
    show (if ln ≤ (applyCalls s1 hist1).finest_ln then _ else _)
        = (if ln ≤ (applyCalls s2 hist2).finest_ln then _ else _)
    rw [c1.2.2, c2.2.2, if_pos hln1, if_pos hln2]
    simpa [setKinematicsVelocity, velFormula] using hv

/-- Concrete configuration used for closed witness statements. -/
noncomputable def sampleParams : FoilParams :=
  { frequency := 1
    heave_amplitude := 1
    pitch_amplitude := 1
    phase_offset := 1
    pivot_point_x := 0.25
    pivot_point_y := 0
    initial_offset_x := 0
    initial_offset_y := 0 }

/-- Concrete provider state used for closed witness statements. -/
noncomputable def sampleState : FoilState :=
  (construct sampleParams 2).1

/-- A second concrete state with the same configuration but a different
call-history footprint (different stored time and centre of mass). -/
noncomputable def sampleStateB : FoilState :=
  { sampleState with d_current_time := 7, d_center_of_mass := [3, 4] }

/-- Witness for claim C4: two concrete histories, one empty and one with an
earlier call, ending at the same time, yield the same velocity vector. -/
theorem claim4_kinematics_stateless_witness :
    (applyCalls sampleState ([] ++ [((5 : ℝ), ([] : List ℝ))])).d_new_kinematics_vel
      = (applyCalls sampleStateB ([((2 : ℝ), ([1] : List ℝ))] ++
          [((5 : ℝ), ([9] : List ℝ))])).d_new_kinematics_vel :=
  (claim4_kinematics_stateless sampleState sampleStateB rfl rfl
    [] [((2 : ℝ), ([1] : List ℝ))] 5 [] [9]).1

/-- `setKinematicsVelocity` wrapped in the error monad of the class: the
member has no failure path at all (no range check, no `TBOX_ERROR`), so the
result is unconditionally `Except.ok`. -/
noncomputable def setKinematicsVelocityE (s : FoilState) (time : ℝ)
    (center_of_mass : List ℝ) : Except String FoilState :=
  Except.ok (setKinematicsVelocity s time center_of_mass)

/-- Claim C5 counterexample: at evaluation time `-1` — before any prescribed
campaign start, i.e. outside every configured kinematic campaign — requesting
the body kinematics succeeds and returns a velocity instead of failing with
`KinematicsOutOfRange`. -/
theorem claim5_counterexample :
    (setKinematicsVelocityE sampleState (-1) []).isOk = true :=
  rfl

/-- Claim C5 amended: `setKinematicsVelocity` performs no campaign-range
check.  For every evaluation time — including times before any prescribed
start or after any prescribed stop — the call succeeds, stores the
closed-form velocity vector, and never produces an error of any kind. -/
theorem claim5_amended_no_range_check (s : FoilState) (t : ℝ) (com : List ℝ) :
    setKinematicsVelocityE s t com = Except.ok (setKinematicsVelocity s t com) ∧
    (setKinematicsVelocityE s t com).isOk = true ∧
    ∀ e : String, setKinematicsVelocityE s t com ≠ Except.error e := by
  refine ⟨rfl, rfl, ?_⟩
  intro e h
  exact Except.noConfusion h

/-- Claim C7: the Strouhal diagnostic reported at construction is the pure
function `f * (2 * h0)` of the configuration, and no later call to the
provider changes the configuration it is derived from, so the value derived
from the live state after any call history still equals the logged value. -/
theorem claim7_strouhal_pure (p : FoilParams) (finest : ℕ)
    (calls : List (ℝ × List ℝ)) :
    (construct p finest).2 = p.frequency * (2 * p.heave_amplitude) ∧
    strouhalReport (applyCalls (construct p finest).1 calls).params
      = (construct p finest).2 := by
  refine ⟨rfl, ?_⟩
  rw [(applyCalls_config (construct p finest).1 calls).1]
  rfl

/-- Claim C8: `getFromInput` fails exactly when one of the required keys
`frequency`, `heave_amplitude`, `pitch_amplitude` is absent; and on every
successful parse, each optional key that is individually absent gets its
default — `phase_offset` becomes 90 degrees = `π / 2` radians, and the
pivot-point and initial-offset members keep their constructor values
`0.25, 0, 0, 0` — regardless of which other optional keys are present. -/
theorem claim8_getFromInput_required_and_defaults :
    (∀ db : FoilDatabase, (getFromInput db).isOk =
        (db.frequency.isSome && db.heave_amplitude.isSome &&
          db.pitch_amplitude.isSome)) ∧
    (∀ (db : FoilDatabase) (p : FoilParams), getFromInput db = Except.ok p →
      (db.phase_offset = none → p.phase_offset = π / 2) ∧
      (db.pivot_point_x = none → p.pivot_point_x = 0.25) ∧
      (db.pivot_point_y = none → p.pivot_point_y = 0) ∧
      (db.initial_offset_x = none → p.initial_offset_x = 0) ∧
      (db.initial_offset_y = none → p.initial_offset_y = 0)) := by
  constructor
  · intro db
    rcases db with ⟨f, h0, pd, ph, px, py, ox, oy⟩
    cases f <;> cases h0 <;> cases pd <;>
      simp [getFromInput, Except.isOk, Except.toBool]
  · intro db p h
    rcases db with ⟨f, h0, pd, ph, px, py, ox, oy⟩
    cases f with
    | none => exact absurd h (by simp [getFromInput])
    | some f =>
    cases h0 with
    | none => exact absurd h (by simp [getFromInput])
    | some h0 =>
    cases pd with
    | none => exact absurd h (by simp [getFromInput])
    | some pd =>
    refine ⟨?_, ?_, ?_, ?_, ?_⟩ <;> intro hnone <;> subst hnone <;>
      simp only [getFromInput, Except.ok.injEq] at h <;> rw [← h]
    show deg_to_rad 90 = π / 2
    simp only [deg_to_rad]
    ring
    all_goals rfl

/-- An input database with mixed optional-key presence: `phase_offset`,
`pivot_point_y` and `initial_offset_y` absent while `pivot_point_x` and
`initial_offset_x` are present. -/
noncomputable def mixedDb : FoilDatabase :=
  { frequency := some 1
    heave_amplitude := some 2
    pitch_amplitude := some 3
    phase_offset := none
    pivot_point_x := some 7
    pivot_point_y := none
    initial_offset_x := some 5
    initial_offset_y := none }

/-- The parse result of `mixedDb`. -/
noncomputable def mixedParams : FoilParams :=
  { frequency := 1
    heave_amplitude := 2
    pitch_amplitude := deg_to_rad 3
    phase_offset := deg_to_rad 90
    pivot_point_x := 7
    pivot_point_y := 0
    initial_offset_x := 5
    initial_offset_y := 0 }

/-- Witness for claim C8 at a mixed-presence database: each individually
absent optional key receives its own default even though other optional
keys are present. -/
theorem claim8_getFromInput_required_and_defaults_witness :
    mixedParams.phase_offset = π / 2 ∧
    mixedParams.pivot_point_y = 0 ∧
    mixedParams.initial_offset_y = 0 :=
  ⟨((claim8_getFromInput_required_and_defaults.2 mixedDb mixedParams rfl).1 rfl),
   ((claim8_getFromInput_required_and_defaults.2 mixedDb mixedParams rfl).2.2.1 rfl),
   ((claim8_getFromInput_required_and_defaults.2 mixedDb mixedParams rfl).2.2.2.2 rfl)⟩

/-- Claim C9: after every `setKinematicsVelocity` call the horizontal
translational velocity component is exactly `0` and the identical kinematics
velocity vector is stored for every patch level from `0` to the finest
level; after every `setShape` call the stored shape is empty at every
level. -/
theorem claim9_rigid_vertical_structure (s : FoilState) (t : ℝ) (com : List ℝ)
    (ln : ℕ) (hln : ln ≤ s.finest_ln) :
    (setKinematicsVelocity s t com).d_new_kinematics_vel.head? = some 0 ∧
    (setKinematicsVelocity s t com).d_kinematics_vel ln
      = (setKinematicsVelocity s t com).d_new_kinematics_vel ∧
    (setShape s t).d_shape ln = [] := by
  refine ⟨rfl, ?_, ?_⟩
  · show (if ln ≤ s.finest_ln then _ else _) = _
    rw [if_pos hln]
    rfl
  · show (if ln ≤ s.finest_ln then _ else _) = ([] : List ℝ)
    rw [if_pos hln]

/-- Witness for claim C9 at a concrete state, time and level. -/
theorem claim9_rigid_vertical_structure_witness :
    (setKinematicsVelocity sampleState 5 []).d_new_kinematics_vel.head? = some 0 ∧
    (setKinematicsVelocity sampleState 5 []).d_kinematics_vel 1
      = (setKinematicsVelocity sampleState 5 []).d_new_kinematics_vel ∧
    (setShape sampleState 5).d_shape 1 = [] :=
  claim9_rigid_vertical_structure sampleState 5 [] 1 (by decide)

/-- The Test-04 manufactured exact solution
`C(x,y,t) = sin(πx) sin(πy) exp(-βt)`. -/
noncomputable def C_exact (β x y t : ℝ) : ℝ :=
  Real.sin (π * x) * Real.sin (π * y) * Real.exp (-β * t)

/-- The Test-04 manufactured-solution source term, exactly as written in the
MMS test description: time-derivative, x-advection, y-advection and
diffusion contributions for constant velocity `(U0, V0)` and diffusivity
`α`. -/
noncomputable def S_mms (β U0 V0 α x y t : ℝ) : ℝ :=
  -β * Real.sin (π * x) * Real.sin (π * y) * Real.exp (-β * t)
    + U0 * π * Real.cos (π * x) * Real.sin (π * y) * Real.exp (-β * t)
    + V0 * π * Real.sin (π * x) * Real.cos (π * y) * Real.exp (-β * t)
    + 2 * π ^ 2 * α * Real.sin (π * x) * Real.sin (π * y) * Real.exp (-β * t)

/-- Time derivative of the manufactured solution. -/
theorem hasDerivAt_C_exact_t (β x y t : ℝ) :
    HasDerivAt (fun s => C_exact β x y s)
      (-β * Real.sin (π * x) * Real.sin (π * y) * Real.exp (-β * t)) t := by
  have hl : HasDerivAt (fun s : ℝ => -β * s) (-β) t := by
    simpa using (hasDerivAt_id t).const_mul (-β)
  have h := hl.exp.const_mul (Real.sin (π * x) * Real.sin (π * y))
  simp only [C_exact]
  convert h using 1
  ring

/-- Spatial x-derivative of the manufactured solution. -/
theorem hasDerivAt_C_exact_x (β x y t : ℝ) :
    HasDerivAt (fun a => C_exact β a y t)
      (π * Real.cos (π * x) * Real.sin (π * y) * Real.exp (-β * t)) x := by
  have hl : HasDerivAt (fun a : ℝ => π * a) π x := by
    simpa using (hasDerivAt_id x).const_mul π
  have h := (hl.sin.mul_const (Real.sin (π * y))).mul_const (Real.exp (-β * t))
  simp only [C_exact]
  convert h using 1
  ring

/-- Spatial y-derivative of the manufactured solution. -/
theorem hasDerivAt_C_exact_y (β x y t : ℝ) :
    HasDerivAt (fun b => C_exact β x b t)
      (π * Real.sin (π * x) * Real.cos (π * y) * Real.exp (-β * t)) y := by
  have hl : HasDerivAt (fun b : ℝ => π * b) π y := by
    simpa using (hasDerivAt_id y).const_mul π
  have h := ((hl.sin.const_mul (Real.sin (π * x))).mul_const
    (Real.exp (-β * t)))
  simp only [C_exact]
  convert h using 1
  ring

/-- The x-derivative of the manufactured solution, as a function. -/
theorem deriv_C_exact_x (β y t : ℝ) :
    (deriv fun a => C_exact β a y t)
      = fun a => π * Real.cos (π * a) * Real.sin (π * y) * Real.exp (-β * t) := by
  funext a
  exact (hasDerivAt_C_exact_x β a y t).deriv

/-- The y-derivative of the manufactured solution, as a function. -/
theorem deriv_C_exact_y (β x t : ℝ) :
    (deriv fun b => C_exact β x b t)
      = fun b => π * Real.sin (π * x) * Real.cos (π * b) * Real.exp (-β * t) := by
  funext b
  exact (hasDerivAt_C_exact_y β x b t).deriv

/-- Second x-derivative of the manufactured solution. -/
theorem deriv2_C_exact_x (β x y t : ℝ) :
    deriv (deriv fun a => C_exact β a y t) x
      = -(π ^ 2) * Real.sin (π * x) * Real.sin (π * y) * Real.exp (-β * t) := by
  rw [deriv_C_exact_x]
  have hl : HasDerivAt (fun a : ℝ => π * a) π x := by
    simpa using (hasDerivAt_id x).const_mul π
  have h := ((hl.cos.const_mul π).mul_const (Real.sin (π * y))).mul_const
    (Real.exp (-β * t))
  have h2 := h.deriv
  rw [h2]
  ring

/-- Second y-derivative of the manufactured solution. -/
theorem deriv2_C_exact_y (β x y t : ℝ) :
    deriv (deriv fun b => C_exact β x b t) y
      = -(π ^ 2) * Real.sin (π * x) * Real.sin (π * y) * Real.exp (-β * t) := by
  rw [deriv_C_exact_y]
  have hl : HasDerivAt (fun b : ℝ => π * b) π y := by
    simpa using (hasDerivAt_id y).const_mul π
  have h := ((hl.cos.const_mul (Real.sin (π * x))).const_mul π).mul_const
    (Real.exp (-β * t))
  have hshape : HasDerivAt
      (fun b => π * (Real.sin (π * x) * Real.cos (π * b)) * Real.exp (-β * t))
      (π * (Real.sin (π * x) * (-Real.sin (π * y) * π)) * Real.exp (-β * t)) y := h
  have h3 : HasDerivAt
      (fun b => π * Real.sin (π * x) * Real.cos (π * b) * Real.exp (-β * t))
      (π * (Real.sin (π * x) * (-Real.sin (π * y) * π)) * Real.exp (-β * t)) y := by
    convert hshape using 2 with b
    ring
  rw [h3.deriv]
  ring

/-- Claim C1: the manufactured-solution source term used for the MMS
configuration equals, at every point `(x, y)` and every time `t`, the exact
derivative-consistent forcing `∂C/∂t + U0 ∂C/∂x + V0 ∂C/∂y − α ∇²C` of the
exact solution `C(x,y,t) = sin(πx) sin(πy) exp(-βt)`, with no sign or term
error. -/
theorem claim1_mms_source_consistent (β U0 V0 α x y t : ℝ) :
    S_mms β U0 V0 α x y t
      = deriv (fun s => C_exact β x y s) t
        + (U0 * deriv (fun a => C_exact β a y t) x
            + V0 * deriv (fun b => C_exact β x b t) y)
        - α * (deriv (deriv fun a => C_exact β a y t) x
            + deriv (deriv fun b => C_exact β x b t) y) := by
  rw [(hasDerivAt_C_exact_t β x y t).deriv, (hasDerivAt_C_exact_x β x y t).deriv,
    (hasDerivAt_C_exact_y β x y t).deriv, deriv2_C_exact_x, deriv2_C_exact_y]
  simp only [S_mms]
  ring

/-- Observable outcome of one test-driver `main`: the result line written by
the `ResultLogger`, the footer message, and the process exit code. -/
structure TestRunOutcome where
  loggedName : String
  loggedPassed : Bool
  footerMessage : String
  exitCode : Nat
  deriving DecidableEq, Repr

/-- The Test04 driver `main` (`IBAMR_CPP_Tests/Test04_MMS/main.cpp`):
`test_passed` starts `true` but is unconditionally overwritten with `false`
in the body (the test-specific logic is a TODO), so the logged result, the
footer message and the exit code do not depend on the command line. -/
def test04Main (_argv : List String) : TestRunOutcome :=
  let test_passed : Bool := false
  { loggedName := "Test 04: Method of Manufactured Solutions"
    loggedPassed := test_passed
    footerMessage := if test_passed then "Test completed" else "Test not yet implemented"
    exitCode := if test_passed then 0 else 1 }

/-- The Test05 driver `main` (Discontinuous Initial Condition), with the
same unconditional `test_passed = false` body as Test04. -/
def test05Main (_argv : List String) : TestRunOutcome :=
  let test_passed : Bool := false
  { loggedName := "Test 05: Discontinuous Initial Condition"
    loggedPassed := test_passed
    footerMessage := if test_passed then "Test completed" else "Test not yet implemented"
    exitCode := if test_passed then 0 else 1 }

/-- Claim C10: for every input the Test04 and Test05 executables
unconditionally log a failed result, print the footer message
"Test not yet implemented", and return exit code 1. -/
theorem claim10_stub_tests_always_fail (argv : List String) :
    test04Main argv
      = { loggedName := "Test 04: Method of Manufactured Solutions"
          loggedPassed := false
          footerMessage := "Test not yet implemented"
          exitCode := 1 } ∧
    test05Main argv
      = { loggedName := "Test 05: Discontinuous Initial Condition"
          loggedPassed := false
          footerMessage := "Test not yet implemented"
          exitCode := 1 } :=
  ⟨rfl, rfl⟩

/-- Modelled from the spec: the conservative finite-volume flux-form
advection/diffusion update of §4.1.  The transport core performing this
update (IBAMR's `AdvDiffHierarchyIntegrator`) is an external library and is
not under `src/`; per §4.1 the update of cell `(i,j)` subtracts the net
outflow through its four faces, with `Fx i j` the flux through the x-face
between cells `i-1` and `i` of row `j` (and symmetrically `Fy`).  Both the
advective and the diffusive contributions enter as face fluxes. -/
def fluxStep (dt dx dy : ℚ) (Fx Fy : ℕ → ℕ → ℚ) (C : ℕ → ℕ → ℚ) :
    ℕ → ℕ → ℚ :=
  fun i j =>
    C i j - dt / dx * (Fx (i + 1) j - Fx i j) - dt / dy * (Fy i (j + 1) - Fy i j)

/-- The global mass `M = ∫∫ C dx dy` of the Test06 pass criteria: the cell
values summed over the `nx × ny` grid times the cell area. -/
def totalMass (nx ny : ℕ) (dx dy : ℚ) (C : ℕ → ℕ → ℚ) : ℚ :=
  dx * dy * ∑ i ∈ Finset.range nx, ∑ j ∈ Finset.range ny, C i j

/-- Zero-flux (closed-domain) boundary conditions: the fluxes through the
four domain boundaries vanish. -/
def zeroFluxBC (nx ny : ℕ) (Fx Fy : ℕ → ℕ → ℚ) : Prop :=
  (∀ j, Fx 0 j = 0) ∧ (∀ j, Fx nx j = 0) ∧
  (∀ i, Fy i 0 = 0) ∧ (∀ i, Fy i ny = 0)

/-- One flux-form step with zero-flux boundaries conserves the global mass
exactly: the interior flux differences telescope and the boundary fluxes
vanish. -/
theorem fluxStep_mass (nx ny : ℕ) (dt dx dy : ℚ) (Fx Fy : ℕ → ℕ → ℚ)
    (C : ℕ → ℕ → ℚ) (hbc : zeroFluxBC nx ny Fx Fy) :
    totalMass nx ny dx dy (fluxStep dt dx dy Fx Fy C)
      = totalMass nx ny dx dy C := by
  obtain ⟨hx0, hxn, hy0, hyn⟩ := hbc
  have hXsum : ∑ i ∈ Finset.range nx, ∑ j ∈ Finset.range ny,
      dt / dx * (Fx (i + 1) j - Fx i j) = 0 := by
    rw [Finset.sum_comm]
    refine Finset.sum_eq_zero fun j _ => ?_
    rw [← Finset.mul_sum, Finset.sum_range_sub (fun i => Fx i j), hxn j, hx0 j]
    ring
  have hYsum : ∑ i ∈ Finset.range nx, ∑ j ∈ Finset.range ny,
      dt / dy * (Fy i (j + 1) - Fy i j) = 0 := by
    refine Finset.sum_eq_zero fun i _ => ?_
    rw [← Finset.mul_sum, Finset.sum_range_sub (fun j => Fy i j), hyn i, hy0 i]
    ring
  unfold totalMass fluxStep
  congr 1
  calc
    ∑ i ∈ Finset.range nx, ∑ j ∈ Finset.range ny,
        (C i j - dt / dx * (Fx (i + 1) j - Fx i j)
          - dt / dy * (Fy i (j + 1) - Fy i j))
      = (∑ i ∈ Finset.range nx, ∑ j ∈ Finset.range ny, C i j)
        - (∑ i ∈ Finset.range nx, ∑ j ∈ Finset.range ny,
            dt / dx * (Fx (i + 1) j - Fx i j))
        - (∑ i ∈ Finset.range nx, ∑ j ∈ Finset.range ny,
            dt / dy * (Fy i (j + 1) - Fy i j)) := by
        simp [Finset.sum_sub_distrib]
    _ = ∑ i ∈ Finset.range nx, ∑ j ∈ Finset.range ny, C i j := by
        rw [hXsum, hYsum]
        ring

/-- A run of the integrator on a closed domain with zero-flux boundary
conditions and no source term: each step advances the field by a flux-form
update (with some step size and some face fluxes, advective or diffusive)
whose boundary fluxes vanish. -/
def isClosedNoSourceRun (nx ny : ℕ) (dx dy : ℚ) (Cs : ℕ → ℕ → ℕ → ℚ) : Prop :=
  ∀ n : ℕ, ∃ (dt : ℚ) (Fx Fy : ℕ → ℕ → ℚ),
    zeroFluxBC nx ny Fx Fy ∧ Cs (n + 1) = fluxStep dt dx dy Fx Fy (Cs n)

/-- Claim C2: on a closed domain with zero-flux boundary conditions and no
source term, the global mass at every reached time equals the initial mass,
so the relative drift `|M(t) − M(0)| / M(0)` is below `1e-10` for pure
advection and below `1e-6` for combined advection and diffusion (here it is
exactly zero, since both enter as zero-boundary face fluxes). -/
theorem claim2_mass_conservation (nx ny : ℕ) (dx dy : ℚ)
    (Cs : ℕ → ℕ → ℕ → ℚ) (hrun : isClosedNoSourceRun nx ny dx dy Cs) (n : ℕ) :
    totalMass nx ny dx dy (Cs n) = totalMass nx ny dx dy (Cs 0) ∧
    |totalMass nx ny dx dy (Cs n) - totalMass nx ny dx dy (Cs 0)|
        / totalMass nx ny dx dy (Cs 0) < 1 / 10 ^ 10 ∧
    |totalMass nx ny dx dy (Cs n) - totalMass nx ny dx dy (Cs 0)|
        / totalMass nx ny dx dy (Cs 0) < 1 / 10 ^ 6 := by
  have hmass : totalMass nx ny dx dy (Cs n) = totalMass nx ny dx dy (Cs 0) := by
    induction n with
    | zero => rfl
    | succ m ih =>
        obtain ⟨dt, Fx, Fy, hbc, hstep⟩ := hrun m
        rw [hstep, fluxStep_mass nx ny dt dx dy Fx Fy (Cs m) hbc, ih]
  refine ⟨hmass, ?_, ?_⟩ <;>
    · rw [hmass, sub_self, abs_zero, zero_div]
      norm_num

/-- A concrete run for the claim C2 witness: the constant-one field on a
one-cell grid, advanced by steps with all fluxes zero. -/
def constRun : ℕ → ℕ → ℕ → ℚ :=
  fun _ _ _ => 1

/-- The constant run is a closed, source-free run. -/
theorem constRun_closed : isClosedNoSourceRun 1 1 1 1 constRun := by
  intro n
  refine ⟨1, fun _ _ => 0, fun _ _ => 0,
    ⟨fun _ => rfl, fun _ => rfl, fun _ => rfl, fun _ => rfl⟩, ?_⟩
  funext i j
  simp [constRun, fluxStep]

/-- Witness for claim C2 on the concrete constant run after three steps. -/
theorem claim2_mass_conservation_witness :
    totalMass 1 1 1 1 (constRun 3) = totalMass 1 1 1 1 (constRun 0) ∧
    |totalMass 1 1 1 1 (constRun 3) - totalMass 1 1 1 1 (constRun 0)|
        / totalMass 1 1 1 1 (constRun 0) < 1 / 10 ^ 10 ∧
    |totalMass 1 1 1 1 (constRun 3) - totalMass 1 1 1 1 (constRun 0)|
        / totalMass 1 1 1 1 (constRun 0) < 1 / 10 ^ 6 :=
  claim2_mass_conservation 1 1 1 1 constRun constRun_closed 3

/-- Error taxonomy entry for the advection stability precondition. -/
inductive TransportError where
  | CFLViolation : TransportError
  deriving DecidableEq, Repr

/-- Modelled from the spec: the advection entry point with its CFL
precondition (§4.1, §7).  The advection core (IBAMR's integrator) is an
external library and is not under `src/`; per the spec, a step whose `Δt`
and velocity field violate `CFL = max(|u|) * Δt / Δx ≤ CFL_max` fails with
`CFLViolation`, and on success the step uses exactly the caller's `Δt`
(returned unchanged as the second component — never silently clamped). -/
def advect (cflMax umax dt dx dy : ℚ) (Fx Fy : ℕ → ℕ → ℚ)
    (C : ℕ → ℕ → ℚ) : Except TransportError ((ℕ → ℕ → ℚ) × ℚ) :=
  if umax * dt / dx ≤ cflMax then
    Except.ok (fluxStep dt dx dy Fx Fy C, dt)
  else
    Except.error TransportError.CFLViolation

/-- Claim C6: every step whose `Δt` and velocity field violate the CFL bound
fails with the error `CFLViolation` reported to the caller, and whenever the
step succeeds it uses the caller's `Δt` unchanged — `Δt` is never silently
clamped or corrected inside the core. -/
theorem claim6_cfl_violation_reported (cflMax umax dt dx dy : ℚ)
    (Fx Fy : ℕ → ℕ → ℚ) (C : ℕ → ℕ → ℚ) :
    (¬ umax * dt / dx ≤ cflMax →
      advect cflMax umax dt dx dy Fx Fy C
        = Except.error TransportError.CFLViolation) ∧
    (∀ out, advect cflMax umax dt dx dy Fx Fy C = Except.ok out →
      out.2 = dt) := by
  constructor
  · intro h
    simp [advect, h]
  · intro out h
    by_cases hc : umax * dt / dx ≤ cflMax
    · simp only [advect, if_pos hc, Except.ok.injEq] at h
      rw [← h]
    · simp [advect, hc] at h

/-- Witness for claim C6: with `CFL_max = 1/2`, `max|u| = 1`, `Δt = 1`,
`Δx = 1` the CFL number is `1 > 1/2` and the step is rejected. -/
theorem claim6_cfl_violation_reported_witness :
    advect (1 / 2) 1 1 1 1 (fun _ _ => 0) (fun _ _ => 0) (fun _ _ => 0)
      = Except.error TransportError.CFLViolation :=
  (claim6_cfl_violation_reported (1 / 2) 1 1 1 1 (fun _ _ => 0)
    (fun _ _ => 0) (fun _ _ => 0)).1 (by norm_num)

end FourFishSchool
